import Mathlib

/-!
Verification development for `SYNEX/SYNEX_Telescopes.py` (class `Athena`).

Shallow embedding conventions:
* Python floats are modelled as exact rationals (`ℚ`); decimal literals are
  taken at their decimal value.
* Python strings that are manipulated character-wise (the filename versioning
  logic) are modelled as `List Char`; strings used only as dictionary keys or
  identifiers are modelled as `String`.
* Python dictionaries are modelled as association lists (`List (String × PyVal)`)
  with first-match lookup; insertion appends at the end, matching Python's
  insertion-order semantics.
* Fallible code returns `Except PyErr _`; a Python exception (NameError,
  KeyError, ValueError) is an `Except.error`.
* External collaborators (astropy's `kuiper`, the orbit propagator
  `segments_athena.get_telescope_orbit`, gwemopt's tesselation routines,
  `math.log10`/`sqrt` uses) are taken as oracle parameters; where the
  repository's own code is not under `src/` the behaviour is modelled from the
  spec and marked `Modelled from the spec:` in the doc comment.
-/

/-- Python exceptions that the embedded code can raise. -/
inductive PyErr
  | nameError (n : String)
  | keyError (k : String)
  | valueError
  | indexError
deriving DecidableEq

/-- A small model of the Python values stored in the `telescope_go_params` /
`telescope_config_struct` dictionaries: numbers, strings, booleans, 1-D numeric
arrays (`Tobs` is a numpy array) and `None`. -/
inductive PyVal
  | num (q : ℚ)
  | str (s : String)
  | bool (b : Bool)
  | arr (l : List ℚ)
  | pynone
deriving DecidableEq

/-- Python dictionaries with string keys, as insertion-ordered association lists. -/
abbrev PyDict := List (String × PyVal)

/-- First-match association-list lookup, the model of Python `d[k]` / `k in d`. -/
def pyLookup (k : String) : PyDict → Option PyVal
  | [] => Option.none
  | kv :: rest => if kv.1 = k then some kv.2 else pyLookup k rest

/-- Python `d[k] = v`: overwrite in place if the key exists, else append
(Python dicts keep insertion order). -/
def dictSet (d : PyDict) (k : String) (v : PyVal) : PyDict :=
  if (pyLookup k d).isSome then
    d.map (fun kv => if kv.1 = k then (k, v) else kv)
  else d ++ [(k, v)]

/-- Model of `np.array_equal` on the stored values: for 1-D numeric arrays it is
true iff the lengths agree and all elements agree, which on this value model is
structural equality; scalars compare as 0-d arrays, again structural equality. -/
def npArrayEqual (a b : PyVal) : Bool := a == b

/- ********************  Claim C6: coverage cleared on mutation  ******************** -/

/-- Embeds `Athena.__init__` lines 277-294: after resurrection the source
coverage and the tile struct are forced to `None` whenever `MUTATED` is set
(the tile-struct assignment block is duplicated verbatim in the source, so it
is transcribed twice here as well). -/
def resurrectDerivedState {α β : Type} (MUTATED : Bool) (saved_cov : Option α)
    (saved_tile : Option β) : Option α × Option β :=
  let telescope_source_coverage := if MUTATED then Option.none else saved_cov
  let telescope_tile_struct := if MUTATED then Option.none else saved_tile
  let telescope_tile_struct := if MUTATED then Option.none else telescope_tile_struct
  (telescope_source_coverage, telescope_tile_struct)

/-- Claim C6: whenever mutation is detected while resurrecting, the resurrected
instrument's source coverage and tile structure are both set to `None`
regardless of the saved snapshot; when no mutation is detected they are taken
from the snapshot. -/
theorem resurrection_clears_coverage_on_mutation {α β : Type}
    (saved_cov : Option α) (saved_tile : Option β) :
    resurrectDerivedState true saved_cov saved_tile = (Option.none, Option.none) ∧
    resurrectDerivedState false saved_cov saved_tile = (saved_cov, saved_tile) := by
  constructor <;> rfl

/- ********************  Claim C2: writes under PermissionToWrite  ******************** -/

/-- The three disk artifacts the spec's single-writer rule is about. -/
inductive WriteOp
  | orbitFile
  | tesselationFile
  | saveFile
deriving DecidableEq

/-- Embeds `Athena.__init__` lines 266-271: the flag passed to the orbit
propagator.  `SAVETOFILE` is forced to `False` when the process lacks write
permission; otherwise it is set when the configuration mutated or the orbit
file is missing. -/
def computeSAVETOFILE (permissionToWrite MUTATED orbitFileExists : Bool) : Bool :=
  if ¬permissionToWrite then false
  else if MUTATED ∨ ¬orbitFileExists then true
  else false

/-- Modelled from the spec: `segments_athena.get_telescope_orbit` (not under
`src/`) writes the orbit file exactly when its `SAVETOFILE` flag is true. -/
def getOrbitWrites (SAVETOFILE : Bool) : List WriteOp :=
  if SAVETOFILE then [WriteOp.orbitFile] else []

/-- Modelled from the spec: gwemopt's `tesselation_spiral` / `tesselation_packing`
(external collaborators, called at `ComputeTesselation` lines 354-357 with
`WriteToFile=self.PermissionToWrite`) write the tesselation file exactly when
the flag is true; they are invoked for the circle and square field-of-view
shapes. -/
def tesselationWrites (permissionToWrite : Bool) (FOV_type : String) : List WriteOp :=
  if FOV_type = "circle" ∨ FOV_type = "square" then
    (if permissionToWrite then [WriteOp.tesselationFile] else [])
  else []

/-- Embeds `Athena.ExistentialCrisis` lines 553-579: the instrument state is
pickled to the save file unconditionally — the function contains no check of
`PermissionToWrite`. -/
def existentialCrisisWrites : List WriteOp := [WriteOp.saveFile]

/-- The disk writes performed by one `Athena.__init__` run: the orbit-propagator
call (line 275), the tesselation computation (line 333 calling lines 354-357),
and the save performed at the end of `ComputeTesselation` (line 379). -/
def instrumentInitWrites (permissionToWrite MUTATED orbitFileExists : Bool)
    (FOV_type : String) : List WriteOp :=
  getOrbitWrites (computeSAVETOFILE permissionToWrite MUTATED orbitFileExists) ++
    tesselationWrites permissionToWrite FOV_type ++ existentialCrisisWrites

/-- Claim C2 counterexample: with `PermissionToWrite = false` (and a mutated
config with an existing orbit file, circular field of view) the instrument save
file IS written, contradicting the claim that all three disk writes are
suppressed. -/
theorem savefile_written_without_permission_counterexample :
    WriteOp.saveFile ∈ instrumentInitWrites false true true "circle" := by
  decide

/-- Claim C2 (amended): when `PermissionToWrite` is false the orbit file and the
tesselation file are never written, but the instrument save file is still
written — `ExistentialCrisis` saves unconditionally. -/
theorem no_permission_writes_amended (MUTATED orbitFileExists : Bool) (FOV_type : String) :
    WriteOp.orbitFile ∉ instrumentInitWrites false MUTATED orbitFileExists FOV_type ∧
    WriteOp.tesselationFile ∉ instrumentInitWrites false MUTATED orbitFileExists FOV_type ∧
    WriteOp.saveFile ∈ instrumentInitWrites false MUTATED orbitFileExists FOV_type := by
  have hX : tesselationWrites false FOV_type = [] := by
    unfold tesselationWrites; split <;> rfl
  have hS : computeSAVETOFILE false MUTATED orbitFileExists = false := rfl
  unfold instrumentInitWrites
  rw [hX, hS]
  simp [getOrbitWrites, existentialCrisisWrites]

/- ********************  Claim C8: single-exposure magnitude correction  ******************** -/

/-- The slice of `telescope_config_struct` that `ComputeTesselation`'s
single-exposure branch reads and writes. -/
structure TelCfg where
  exposuretime : ℚ
  magnitude : ℚ
deriving DecidableEq

/-- Embeds `Athena.ComputeTesselation` lines 343-351.  `log10` and `sqrt` are
the external math routines, taken as oracles.  `exposuretimes`, when present in
`telescope_go_params`, is the already-parsed list of floats from the
comma-separated string (its first element is used; `[0]` on an empty array is
an IndexError). -/
def computeTesselationExposure (log10 sqrt : ℚ → ℚ) (doSingleExposure : Bool)
    (exposuretimes : Option (List ℚ)) (cfg : TelCfg) : Except PyErr TelCfg :=
  if doSingleExposure then
    match (match exposuretimes with
           | some ets => (match ets with
                          | [] => Except.error PyErr.indexError
                          | et :: _ => Except.ok et)
           | Option.none => Except.ok cfg.exposuretime : Except PyErr ℚ) with
    | Except.error e => Except.error e
    | Except.ok exposuretime =>
      let nmag := -(5/2 : ℚ) * log10 (sqrt (cfg.exposuretime / exposuretime))
      Except.ok { magnitude := cfg.magnitude + nmag, exposuretime := exposuretime }
  else Except.ok cfg

/-- Claim C8: when single-exposure mode is requested, the stored per-tile
exposure time becomes the requested one and the correction
`-2.5*log10(sqrt(baseline_exposure/requested_exposure))` (with the baseline
read before the update) is added to the stored magnitude, exactly once; when it
is not requested, both fields are unchanged. -/
theorem computeTesselation_single_exposure_correction (log10 sqrt : ℚ → ℚ)
    (et : ℚ) (rest : List ℚ) (exposuretimes : Option (List ℚ)) (cfg : TelCfg) :
    computeTesselationExposure log10 sqrt true (some (et :: rest)) cfg =
      Except.ok { exposuretime := et,
                  magnitude := cfg.magnitude + -(5/2 : ℚ) * log10 (sqrt (cfg.exposuretime / et)) } ∧
    computeTesselationExposure log10 sqrt true Option.none cfg =
      Except.ok { exposuretime := cfg.exposuretime,
                  magnitude := cfg.magnitude +
                    -(5/2 : ℚ) * log10 (sqrt (cfg.exposuretime / cfg.exposuretime)) } ∧
    computeTesselationExposure log10 sqrt false exposuretimes cfg = Except.ok cfg := by
  refine ⟨rfl, rfl, rfl⟩

/- ********************  Claim C9: tile-count truncation  ******************** -/

/-- Python `max` over a list of ints; `max([])` raises ValueError, modelled as
`Option.none` here (turned into the error at the call site). -/
def maxOfList : List ℤ → Option ℤ
  | [] => Option.none
  | x :: xs =>
    match maxOfList xs with
    | Option.none => some x
    | some m => some (max x m)

/-- Embeds `Athena.GetKuiper` lines 402-407: the number of tiles implied by the
time to merger, `int(-TimeToMerger//self.T_lat)`. -/
def computeNTimes (T_s DeltatL_cut T_lat : ℚ) : ℤ :=
  let TimeToMerger := if T_s > DeltatL_cut then T_s else DeltatL_cut
  Int.floor (-TimeToMerger / T_lat)

/-- Embeds `Athena.GetKuiper` line 413 ("MaxProb" strategy): keep the tiles
whose integer key is below `n_times`.  Tile keys are strings of integers in the
source; they are modelled as the integers themselves. -/
def reduceTilesMaxProb (tileKeys : List ℤ) (n_times : ℤ) : List ℤ :=
  tileKeys.filter (fun k => k < n_times)

/-- Embeds `Athena.GetKuiper` lines 417-420: take the maximum key of the reduced
tile dictionary (`max` of an empty collection is a ValueError) and truncate
`n_times` down to it when it is smaller. -/
def truncateNTimes (tileKeys : List ℤ) (n_times : ℤ) : Except PyErr ℤ :=
  match maxOfList (reduceTilesMaxProb tileKeys n_times) with
  | Option.none => Except.error PyErr.valueError
  | some max_key => Except.ok (if max_key < n_times then max_key else n_times)

theorem maxOfList_eq_none {l : List ℤ} : maxOfList l = Option.none ↔ l = [] := by
  cases l with
  | nil => simp [maxOfList]
  | cons x xs =>
    constructor
    · intro h
      exfalso
      simp only [maxOfList] at h
      rcases hmx : maxOfList xs with _ | m <;> rw [hmx] at h <;> exact Option.noConfusion h
    · intro h
      exact absurd h (List.cons_ne_nil _ _)

theorem maxOfList_is_ub {l : List ℤ} {M : ℤ} (h : maxOfList l = some M) :
    ∀ k ∈ l, k ≤ M := by
  induction l generalizing M with
  | nil => simp [maxOfList] at h
  | cons x xs ih =>
    intro k hk
    simp only [maxOfList] at h
    rcases hmx : maxOfList xs with _ | m <;> rw [hmx] at h <;>
      injection h with h <;> subst h
    · have hxs : xs = [] := maxOfList_eq_none.mp hmx
      subst hxs
      rcases List.mem_cons.mp hk with h1 | h1
      · exact le_of_eq h1
      · simp at h1
    · rcases List.mem_cons.mp hk with h1 | h1
      · exact le_of_eq h1 |>.trans (le_max_left _ _)
      · exact le_trans (ih hmx _ h1) (le_max_right _ _)

/-- Claim C9: when the maximum available tile index is smaller than the number
of tiles implied by the time to merger, the run keeps every available tile and
truncates `n_times` to that maximum instead of failing. -/
theorem getKuiper_truncates_to_max_tile (tileKeys : List ℤ) (n_times M : ℤ)
    (hmax : maxOfList tileKeys = some M) (hlt : M < n_times) :
    reduceTilesMaxProb tileKeys n_times = tileKeys ∧
    truncateNTimes tileKeys n_times = Except.ok M := by
  have hall : ∀ k ∈ tileKeys, k < n_times :=
    fun k hk => lt_of_le_of_lt (maxOfList_is_ub hmax k hk) hlt
  have hred : reduceTilesMaxProb tileKeys n_times = tileKeys := by
    unfold reduceTilesMaxProb
    exact List.filter_eq_self.mpr (fun a ha => by simpa using hall a ha)
  refine ⟨hred, ?_⟩
  unfold truncateNTimes
  rw [hred, hmax]
  simp [hlt]

/-- Claim C9 witness: a concrete three-tile dictionary with room for five
tiles keeps all three tiles and truncates to index 2. -/
theorem getKuiper_truncates_witness :
    maxOfList [0, 1, 2] = some 2 ∧ (2 : ℤ) < 5 ∧
    (reduceTilesMaxProb [0, 1, 2] 5 = [0, 1, 2] ∧
     truncateNTimes [0, 1, 2] 5 = Except.ok 2) :=
  ⟨by decide, by decide, getKuiper_truncates_to_max_tile [0, 1, 2] 5 2 (by decide) (by decide)⟩

/- ********************  Claim C10: GetKuiper always raises NameError  ******************** -/

/-- The names bound at module scope in `SYNEX_Telescopes.py` (its import block,
lines 1-23, plus the class itself), together with the Python builtins the file
uses.  `LISAPosteriorDataFile` is not among them. -/
def moduleScopeNames : List String :=
  ["u", "astat", "Time", "astropy", "astroplan", "np", "os", "SYU", "SYNEX_PATH",
   "gwemopt", "json", "date", "pathlib", "pickle", "matplotlib", "plt", "scipy",
   "copy", "MPI", "Athena",
   "open", "int", "float", "str", "list", "len", "max", "min", "sum", "print",
   "zip", "range", "enumerate", "sorted"]

/-- Python name resolution for a name that is not a local of `GetKuiper`
(never assigned in the function body): look it up in the module scope and the
builtins; failure is a NameError. -/
def resolveGlobal (name : String) : Except PyErr String :=
  if name ∈ moduleScopeNames then Except.ok name else Except.error (PyErr.nameError name)

/-- Embeds `Athena.GetKuiper` lines 392-397.  The pickle load of
`TilePickleFile` is modelled by passing the loaded `TileDict["LISA Data File"]`
value in; line 397 then evaluates the argument `LISAPosteriorDataFile`, a name
assigned nowhere in the function and absent from module scope.  `rest`
abstracts the remainder of the function body (everything from the
`SYU.CompleteLisabetaDataAndJsonFileNames` call on), which receives the
resolved value if resolution succeeds. -/
def getKuiperRun (α : Type) (rest : String → Except PyErr α)
    (tileDictLISADataFile : String) : Except PyErr α :=
  let _H5FileLocAndName := tileDictLISADataFile
  match resolveGlobal "LISAPosteriorDataFile" with
  | Except.error e => Except.error e
  | Except.ok v => rest v

/-- Claim C10: every call of `GetKuiper` that reaches the data-file-name
completion step raises `NameError` on the undefined name
`LISAPosteriorDataFile`, whatever the tile dictionary contains and whatever the
rest of the function would have computed; consequently no trace or summary
value is ever produced. -/
theorem getKuiper_always_raises_nameError (α : Type) (rest : String → Except PyErr α)
    (tileDictLISADataFile : String) :
    getKuiperRun α rest tileDictLISADataFile =
      Except.error (PyErr.nameError "LISAPosteriorDataFile") := by
  have h : resolveGlobal "LISAPosteriorDataFile" =
      Except.error (PyErr.nameError "LISAPosteriorDataFile") := by
    unfold resolveGlobal
    rw [if_neg]
    simp [moduleScopeNames]
  unfold getKuiperRun
  rw [h]

/- ********************  Claim C1: the mutation decision  ******************** -/

/-- Embeds the `ValueCheck1`/`ValueCheck2` comprehensions of `Athena.__init__`
lines 153-154: for every overlay key present in the given saved dictionary
(excluding `"Tobs"`), a boolean recording whether the new value differs. -/
def valueCheck (d : PyDict) (kwargs : PyDict) : List Bool :=
  kwargs.filterMap (fun kv =>
    match pyLookup kv.1 d with
    | some v0 => if ¬ kv.1 = "Tobs" then some (decide (¬ kv.2 = v0)) else Option.none
    | Option.none => Option.none)

/-- Embeds the `KeysCheck` comprehension of `Athena.__init__` line 155: for
every overlay key, whether it is absent from both saved dictionaries. -/
def keysCheck (kwargs go conf : PyDict) : List Bool :=
  kwargs.map (fun kv =>
    decide (pyLookup kv.1 go = Option.none ∧ pyLookup kv.1 conf = Option.none))

/-- Embeds the mutation decision of `Athena.__init__` lines 148-159, taken when
a save file was loaded.  `kwargs` is the overlay after `verbose` and
`ExistentialFileName` have been removed (lines 66 and 99); `go`/`conf` are the
loaded `telescope_go_params`/`telescope_config_struct`.  Note the guard
`len(kwargs.keys())>1` on line 151, and that line 156 indexes
`telescope_go_params["Tobs"]` (a KeyError when the saved dictionary lacks
`Tobs`). -/
def decideMutation (kwargs go conf : PyDict) : Except PyErr Bool :=
  if (pyLookup "NewExistentialFileName" kwargs).isSome then Except.ok true
  else if kwargs.length > 1 then
    match pyLookup "Tobs" kwargs with
    | some tobs_new =>
      match pyLookup "Tobs" go with
      | some tobs_old =>
        if npArrayEqual tobs_new tobs_old then
          Except.ok ((valueCheck go kwargs ++ valueCheck conf kwargs ++
            keysCheck kwargs go conf).any id)
        else Except.ok true
      | Option.none => Except.error (PyErr.keyError "Tobs")
    | Option.none =>
      Except.ok ((valueCheck go kwargs ++ valueCheck conf kwargs ++
        keysCheck kwargs go conf).any id)
  else Except.ok false

/-- Whether the overlay entry `kv` hits a key of `d` with a differing value. -/
def diffIn (d : PyDict) (kv : String × PyVal) : Bool :=
  match pyLookup kv.1 d with
  | some v0 => decide (¬ kv.2 = v0)
  | Option.none => false

/-- The mutation predicate exactly as claim C1 words it (this definition follows
the claim, not the source, for the refinement comparison): an explicit
new-identity directive, or some non-`Tobs` overlay key present in a saved
schema with a differing value, or a differing `Tobs` array, or some overlay key
absent from both schemas. -/
def mutationSpecClaim (kwargs go conf : PyDict) : Bool :=
  (pyLookup "NewExistentialFileName" kwargs).isSome
  || kwargs.any (fun kv => decide (¬ kv.1 = "Tobs") && (diffIn go kv || diffIn conf kv))
  || (match pyLookup "Tobs" kwargs, pyLookup "Tobs" go with
      | some tn, some to_ => !(npArrayEqual tn to_)
      | _, _ => false)
  || kwargs.any (fun kv =>
      decide (pyLookup kv.1 go = Option.none ∧ pyLookup kv.1 conf = Option.none))

theorem any_getD_filterMap {α : Type} (l : List α) (f : α → Option Bool) :
    (l.filterMap f).any id = l.any (fun a => (f a).getD false) := by
  induction l with
  | nil => rfl
  | cons x xs ih =>
    rw [List.filterMap_cons]
    rcases hfx : f x with _ | b
    · simp [List.any_cons, hfx, ih]
    · simp [List.any_cons, hfx, ih]

theorem any_or_split {α : Type} (l : List α) (f g : α → Bool) :
    l.any (fun a => f a || g a) = (l.any f || l.any g) := by
  induction l with
  | nil => rfl
  | cons x xs ih =>
    simp only [List.any_cons, ih]
    cases f x <;> cases g x <;> simp

theorem any_ext {α : Type} (l : List α) (f g : α → Bool) (h : ∀ a ∈ l, f a = g a) :
    l.any f = l.any g := by
  induction l with
  | nil => rfl
  | cons x xs ih =>
    simp only [List.any_cons]
    rw [h x (by simp), ih (fun a ha => h a (by simp [ha]))]

theorem valueCheck_any (d : PyDict) (kwargs : PyDict) :
    (valueCheck d kwargs).any id =
      kwargs.any (fun kv => decide (¬ kv.1 = "Tobs") && diffIn d kv) := by
  unfold valueCheck
  rw [any_getD_filterMap]
  apply any_ext
  intro kv _
  unfold diffIn
  rcases pyLookup kv.1 d with _ | v0
  · simp
  · by_cases h : kv.1 = "Tobs" <;> simp [h]

theorem checksAny_eq (kwargs go conf : PyDict) :
    (valueCheck go kwargs ++ valueCheck conf kwargs ++ keysCheck kwargs go conf).any id =
      (kwargs.any (fun kv => decide (¬ kv.1 = "Tobs") && (diffIn go kv || diffIn conf kv)) ||
       kwargs.any (fun kv =>
         decide (pyLookup kv.1 go = Option.none ∧ pyLookup kv.1 conf = Option.none))) := by
  rw [List.any_append, List.any_append, valueCheck_any, valueCheck_any]
  have hKC : (keysCheck kwargs go conf).any id =
      kwargs.any (fun kv =>
        decide (pyLookup kv.1 go = Option.none ∧ pyLookup kv.1 conf = Option.none)) := by
    unfold keysCheck
    induction kwargs with
    | nil => rfl
    | cons x xs ih => simp only [List.map_cons, List.any_cons, ih, id]
  rw [hKC]
  have hsplit : kwargs.any (fun kv => decide (¬ kv.1 = "Tobs") && (diffIn go kv || diffIn conf kv))
      = (kwargs.any (fun kv => decide (¬ kv.1 = "Tobs") && diffIn go kv) ||
         kwargs.any (fun kv => decide (¬ kv.1 = "Tobs") && diffIn conf kv)) := by
    rw [← any_or_split]
    apply any_ext
    intro a _
    cases hd : decide (¬ a.1 = "Tobs") <;> cases diffIn go a <;> cases diffIn conf a <;> rfl
  rw [hsplit, Bool.or_assoc]

/-- Claim C1 counterexample: an overlay consisting of a single schema key whose
value differs from the saved one.  The claim says the decision must be true
(a differing overlay value), but line 151's `len(kwargs.keys())>1` guard makes
the code return false. -/
theorem decideMutation_single_key_counterexample :
    decideMutation [("exposuretime", PyVal.num 2)] [("exposuretime", PyVal.num 10000)] []
      = Except.ok false ∧
    mutationSpecClaim [("exposuretime", PyVal.num 2)] [("exposuretime", PyVal.num 10000)] []
      = true := by
  constructor <;> rfl

/-- Claim C1 (amended): the decision equals the claimed four-way disjunction
provided the overlay (after `verbose`/`ExistentialFileName` removal) has more
than one key or carries the new-identity directive; an overlay with at most one
key and no directive always decides false.  (When the overlay has a `Tobs` the
saved `telescope_go_params` must too, else line 156 is a KeyError.) -/
theorem decideMutation_matches_spec_amended (kwargs go conf : PyDict)
    (hbig : kwargs.length > 1 ∨ (pyLookup "NewExistentialFileName" kwargs).isSome = true)
    (hTobs : (pyLookup "Tobs" kwargs).isSome = true → (pyLookup "Tobs" go).isSome = true) :
    decideMutation kwargs go conf = Except.ok (mutationSpecClaim kwargs go conf) := by
  unfold decideMutation mutationSpecClaim
  by_cases hdir : (pyLookup "NewExistentialFileName" kwargs).isSome = true
  · rw [if_pos hdir, hdir]
    simp
  · rw [if_neg hdir]
    have hlen : kwargs.length > 1 := hbig.resolve_right hdir
    rw [if_pos hlen]
    have hdir' : (pyLookup "NewExistentialFileName" kwargs).isSome = false :=
      Bool.not_eq_true _ |>.mp hdir
    rcases hT : pyLookup "Tobs" kwargs with _ | tv
    · rw [hdir']
      rw [checksAny_eq]
      simp
    · have hgo : (pyLookup "Tobs" go).isSome = true := hTobs (by rw [hT]; rfl)
      rcases hg : pyLookup "Tobs" go with _ | gv
      · rw [hg] at hgo; exact absurd hgo (by simp)
      · rw [checksAny_eq]
        by_cases harr : npArrayEqual tv gv = true
        · simp [harr, hdir']
        · have harr' : npArrayEqual tv gv = false := Bool.not_eq_true _ |>.mp harr
          simp [harr']

/-- Claim C1 witness: a two-key overlay with one differing schema value — the
hypotheses of the amended theorem hold and the decision is the claimed
disjunction. -/
theorem decideMutation_matches_spec_witness :
    ((([("exposuretime", PyVal.num 2), ("junk", PyVal.num 1)] : PyDict).length > 1 ∨
      (pyLookup "NewExistentialFileName"
        [("exposuretime", PyVal.num 2), ("junk", PyVal.num 1)]).isSome = true) ∧
     ((pyLookup "Tobs" [("exposuretime", PyVal.num 2), ("junk", PyVal.num 1)]).isSome = true →
      (pyLookup "Tobs" [("exposuretime", PyVal.num 10000)]).isSome = true)) ∧
    decideMutation [("exposuretime", PyVal.num 2), ("junk", PyVal.num 1)]
        [("exposuretime", PyVal.num 10000)] [] =
      Except.ok (mutationSpecClaim [("exposuretime", PyVal.num 2), ("junk", PyVal.num 1)]
        [("exposuretime", PyVal.num 10000)] []) :=
  ⟨⟨Or.inl (by decide), by decide⟩,
   decideMutation_matches_spec_amended _ _ _ (Or.inl (by decide)) (by decide)⟩

/- ********************  Claim C7: construction-parameter merge  ******************** -/

/-- Embeds one iteration of the overlay loop of `Athena.__init__` lines 184-192:
a key found in `telescope_go_params` overwrites there; else a key found in
`telescope_config_struct` overwrites there; any other key except
`NewExistentialFileName`/`NeworbitFile` is stored in
`telescope_config_struct` and flips the one-time advisory flag
`print_reminder`.  The state is `(go_params, config_struct, print_reminder)`. -/
def mergeStep (st : PyDict × PyDict × Bool) (kv : String × PyVal) : PyDict × PyDict × Bool :=
  if (pyLookup kv.1 st.1).isSome then (dictSet st.1 kv.1 kv.2, st.2.1, st.2.2)
  else if (pyLookup kv.1 st.2.1).isSome then (st.1, dictSet st.2.1 kv.1 kv.2, st.2.2)
  else if ¬ kv.1 = "NewExistentialFileName" ∧ ¬ kv.1 = "NeworbitFile" then
    (st.1, dictSet st.2.1 kv.1 kv.2, true)
  else st

/-- Embeds the whole overlay loop (`for key,value in kwargs.items()`), started
with `print_reminder = False` (line 183). -/
def mergeKwargs (st : PyDict × PyDict × Bool) : List (String × PyVal) → PyDict × PyDict × Bool
  | [] => st
  | kv :: rest => mergeKwargs (mergeStep st kv) rest

theorem pyLookup_map_update (d : PyDict) (k : String) (v : PyVal) :
    pyLookup k (d.map (fun kv => if kv.1 = k then (k, v) else kv)) =
      if (pyLookup k d).isSome then some v else Option.none := by
  induction d with
  | nil => simp [pyLookup]
  | cons x xs ih =>
    by_cases hx : x.1 = k
    · simp [pyLookup, hx]
    · simp [pyLookup, hx, ih]

theorem pyLookup_append (k : String) (d₁ d₂ : PyDict) :
    pyLookup k (d₁ ++ d₂) =
      match pyLookup k d₁ with
      | some v => some v
      | Option.none => pyLookup k d₂ := by
  induction d₁ with
  | nil => simp [pyLookup]
  | cons x xs ih =>
    by_cases hx : x.1 = k <;> simp [pyLookup, hx, ih]

theorem pyLookup_dictSet_self (d : PyDict) (k : String) (v : PyVal) :
    pyLookup k (dictSet d k v) = some v := by
  unfold dictSet
  by_cases h : (pyLookup k d).isSome
  · rw [if_pos h, pyLookup_map_update, if_pos h]
  · rw [if_neg h, pyLookup_append]
    have h' : pyLookup k d = Option.none := by
      rcases hh : pyLookup k d with _ | w
      · rfl
      · rw [hh] at h; exact absurd rfl h
    rw [h']
    simp [pyLookup]

theorem pyLookup_map_update_ne (d : PyDict) (k k' : String) (v : PyVal) (hne : k' ≠ k) :
    pyLookup k' (d.map (fun kv => if kv.1 = k then (k, v) else kv)) = pyLookup k' d := by
  induction d with
  | nil => rfl
  | cons x xs ih =>
    by_cases hx : x.1 = k
    · have hxk : ¬ x.1 = k' := by rw [hx]; exact Ne.symm hne
      simp [pyLookup, hx, hxk, Ne.symm hne, ih]
    · by_cases hx' : x.1 = k' <;> simp [pyLookup, hx, hx', hne, ih]

theorem pyLookup_dictSet_ne (d : PyDict) (k k' : String) (v : PyVal) (hne : k' ≠ k) :
    pyLookup k' (dictSet d k v) = pyLookup k' d := by
  unfold dictSet
  split
  · exact pyLookup_map_update_ne d k k' v hne
  · rw [pyLookup_append]
    rcases hh : pyLookup k' d with _ | w <;> simp [pyLookup, Ne.symm hne]

theorem mergeStep_frame (st : PyDict × PyDict × Bool) (kv : String × PyVal) (k : String)
    (hne : k ≠ kv.1) :
    pyLookup k (mergeStep st kv).1 = pyLookup k st.1 ∧
    pyLookup k (mergeStep st kv).2.1 = pyLookup k st.2.1 := by
  unfold mergeStep
  split
  · exact ⟨pyLookup_dictSet_ne _ _ _ _ hne, rfl⟩
  · split
    · exact ⟨rfl, pyLookup_dictSet_ne _ _ _ _ hne⟩
    · split
      · exact ⟨rfl, pyLookup_dictSet_ne _ _ _ _ hne⟩
      · exact ⟨rfl, rfl⟩

theorem mergeStep_rem_mono (st : PyDict × PyDict × Bool) (kv : String × PyVal)
    (h : st.2.2 = true) : (mergeStep st kv).2.2 = true := by
  unfold mergeStep
  split
  · exact h
  · split
    · exact h
    · split
      · rfl
      · exact h

theorem mergeKwargs_frame (rest : List (String × PyVal)) (st : PyDict × PyDict × Bool)
    (k : String) (hk : k ∉ rest.map Prod.fst) :
    pyLookup k (mergeKwargs st rest).1 = pyLookup k st.1 ∧
    pyLookup k (mergeKwargs st rest).2.1 = pyLookup k st.2.1 := by
  induction rest generalizing st with
  | nil => exact ⟨rfl, rfl⟩
  | cons kv rest ih =>
    simp only [List.map_cons, List.mem_cons, not_or] at hk
    have h1 := mergeStep_frame st kv k hk.1
    have h2 := ih (mergeStep st kv) hk.2
    exact ⟨h2.1.trans h1.1, h2.2.trans h1.2⟩

theorem mergeKwargs_rem_mono (rest : List (String × PyVal)) (st : PyDict × PyDict × Bool)
    (h : st.2.2 = true) : (mergeKwargs st rest).2.2 = true := by
  induction rest generalizing st with
  | nil => exact h
  | cons kv rest ih => exact ih _ (mergeStep_rem_mono st kv h)

theorem mergeKwargs_append (a b : List (String × PyVal)) (st : PyDict × PyDict × Bool) :
    mergeKwargs st (a ++ b) = mergeKwargs (mergeKwargs st a) b := by
  induction a generalizing st with
  | nil => rfl
  | cons kv a ih =>
    rw [List.cons_append]
    show mergeKwargs (mergeStep st kv) (a ++ b) =
      mergeKwargs (mergeKwargs (mergeStep st kv) a) b
    exact ih _

/-- Claim C7 counterexample: `NewtesselationFile` is a reserved control-flow
directive (it is consumed at `__init__` line 204), and the default gwemopt
schemas do not contain directive keys (modelled from the spec, the defaults
module not being under `src/`) — yet the exclusion list on line 189 names only
`NewExistentialFileName` and `NeworbitFile`, so the directive IS stored in
`telescope_config_struct` as if it were a schema overlay. -/
theorem merge_stores_new_tess_directive_counterexample :
    pyLookup "NewtesselationFile" [("doSingleExposure", PyVal.bool false)] = Option.none ∧
    pyLookup "NewtesselationFile" [("exposuretime", PyVal.num 10000)] = Option.none ∧
    pyLookup "NewtesselationFile"
        (mergeKwargs ([("doSingleExposure", PyVal.bool false)],
            [("exposuretime", PyVal.num 10000)], false)
          [("NewtesselationFile", PyVal.str "new.tess")]).2.1
      = some (PyVal.str "new.tess") :=
  ⟨rfl, rfl, rfl⟩

/-- Claim C7 (amended): for an overlay with distinct keys, a key known to
`telescope_go_params` overwrites there (leaving `telescope_config_struct`
untouched at that key); a key known only to `telescope_config_struct`
overwrites there; a key unknown to both and distinct from the two excluded
directives `NewExistentialFileName`/`NeworbitFile` is stored under
`telescope_config_struct` and raises the one-time advisory flag; the two
excluded directives are stored nowhere.  (The third directive,
`NewtesselationFile`, is not excluded — see the counterexample.) -/
theorem merge_characterization_amended (go conf : PyDict) (kwargs : List (String × PyVal))
    (k : String) (v : PyVal) (hmem : (k, v) ∈ kwargs)
    (hnd : (kwargs.map Prod.fst).Nodup) :
    (∀ v0, pyLookup k go = some v0 →
      pyLookup k (mergeKwargs (go, conf, false) kwargs).1 = some v ∧
      pyLookup k (mergeKwargs (go, conf, false) kwargs).2.1 = pyLookup k conf) ∧
    (pyLookup k go = Option.none → ∀ v0, pyLookup k conf = some v0 →
      pyLookup k (mergeKwargs (go, conf, false) kwargs).2.1 = some v ∧
      pyLookup k (mergeKwargs (go, conf, false) kwargs).1 = Option.none) ∧
    (pyLookup k go = Option.none → pyLookup k conf = Option.none →
      ¬ k = "NewExistentialFileName" → ¬ k = "NeworbitFile" →
      pyLookup k (mergeKwargs (go, conf, false) kwargs).2.1 = some v ∧
      pyLookup k (mergeKwargs (go, conf, false) kwargs).1 = Option.none ∧
      (mergeKwargs (go, conf, false) kwargs).2.2 = true) ∧
    (pyLookup k go = Option.none → pyLookup k conf = Option.none →
      (k = "NewExistentialFileName" ∨ k = "NeworbitFile") →
      pyLookup k (mergeKwargs (go, conf, false) kwargs).1 = Option.none ∧
      pyLookup k (mergeKwargs (go, conf, false) kwargs).2.1 = Option.none) := by
  obtain ⟨s, t, rfl⟩ := List.append_of_mem hmem
  have hnd' := hnd
  rw [List.map_append, List.map_cons, List.nodup_append] at hnd'
  obtain ⟨-, hcons, hdisj⟩ := hnd'
  have hkt : k ∉ t.map Prod.fst := (List.nodup_cons.mp hcons).1
  have hks : k ∉ s.map Prod.fst := fun hin => (List.disjoint_left.mp hdisj hin) (by simp)
  have hsplit : mergeKwargs (go, conf, false) (s ++ (k, v) :: t) =
      mergeKwargs (mergeStep (mergeKwargs (go, conf, false) s) (k, v)) t := by
    rw [mergeKwargs_append]
    rfl
  have hfr₁ := mergeKwargs_frame s (go, conf, false) k hks
  rw [hsplit]
  have hfr₂ := mergeKwargs_frame t (mergeStep (mergeKwargs (go, conf, false) s) (k, v)) k hkt
  refine ⟨?_, ?_, ?_, ?_⟩
  · intro v0 hgo
    have hcond : (pyLookup k (mergeKwargs (go, conf, false) s).1).isSome = true := by
      rw [hfr₁.1]; simp [hgo]
    have hstep : mergeStep (mergeKwargs (go, conf, false) s) (k, v) =
        (dictSet (mergeKwargs (go, conf, false) s).1 k v,
         (mergeKwargs (go, conf, false) s).2.1,
         (mergeKwargs (go, conf, false) s).2.2) := by
      unfold mergeStep
      rw [if_pos hcond]
    constructor
    · calc pyLookup k (mergeKwargs (mergeStep (mergeKwargs (go, conf, false) s) (k, v)) t).1
          = pyLookup k (mergeStep (mergeKwargs (go, conf, false) s) (k, v)).1 := hfr₂.1
        _ = pyLookup k (dictSet (mergeKwargs (go, conf, false) s).1 k v) := by rw [hstep]
        _ = some v := pyLookup_dictSet_self _ _ _
    · calc pyLookup k (mergeKwargs (mergeStep (mergeKwargs (go, conf, false) s) (k, v)) t).2.1
          = pyLookup k (mergeStep (mergeKwargs (go, conf, false) s) (k, v)).2.1 := hfr₂.2
        _ = pyLookup k (mergeKwargs (go, conf, false) s).2.1 := by rw [hstep]
        _ = pyLookup k conf := hfr₁.2
  · intro hgo v0 hconf
    have hcond : ¬ (pyLookup k (mergeKwargs (go, conf, false) s).1).isSome = true := by
      rw [hfr₁.1]; simp [hgo]
    have hcond2 : (pyLookup k (mergeKwargs (go, conf, false) s).2.1).isSome = true := by
      rw [hfr₁.2]; simp [hconf]
    have hstep : mergeStep (mergeKwargs (go, conf, false) s) (k, v) =
        ((mergeKwargs (go, conf, false) s).1,
         dictSet (mergeKwargs (go, conf, false) s).2.1 k v,
         (mergeKwargs (go, conf, false) s).2.2) := by
      unfold mergeStep
      rw [if_neg hcond, if_pos hcond2]
    constructor
    · calc pyLookup k (mergeKwargs (mergeStep (mergeKwargs (go, conf, false) s) (k, v)) t).2.1
          = pyLookup k (mergeStep (mergeKwargs (go, conf, false) s) (k, v)).2.1 := hfr₂.2
        _ = pyLookup k (dictSet (mergeKwargs (go, conf, false) s).2.1 k v) := by rw [hstep]
        _ = some v := pyLookup_dictSet_self _ _ _
    · calc pyLookup k (mergeKwargs (mergeStep (mergeKwargs (go, conf, false) s) (k, v)) t).1
          = pyLookup k (mergeStep (mergeKwargs (go, conf, false) s) (k, v)).1 := hfr₂.1
        _ = pyLookup k (mergeKwargs (go, conf, false) s).1 := by rw [hstep]
        _ = Option.none := hfr₁.1.trans hgo
  · intro hgo hconf hk1 hk2
    have hcond : ¬ (pyLookup k (mergeKwargs (go, conf, false) s).1).isSome = true := by
      rw [hfr₁.1]; simp [hgo]
    have hcond2 : ¬ (pyLookup k (mergeKwargs (go, conf, false) s).2.1).isSome = true := by
      rw [hfr₁.2]; simp [hconf]
    have hstep : mergeStep (mergeKwargs (go, conf, false) s) (k, v) =
        ((mergeKwargs (go, conf, false) s).1,
         dictSet (mergeKwargs (go, conf, false) s).2.1 k v, true) := by
      unfold mergeStep
      rw [if_neg hcond, if_neg hcond2, if_pos ⟨hk1, hk2⟩]
    refine ⟨?_, ?_, ?_⟩
    · calc pyLookup k (mergeKwargs (mergeStep (mergeKwargs (go, conf, false) s) (k, v)) t).2.1
          = pyLookup k (mergeStep (mergeKwargs (go, conf, false) s) (k, v)).2.1 := hfr₂.2
        _ = pyLookup k (dictSet (mergeKwargs (go, conf, false) s).2.1 k v) := by rw [hstep]
        _ = some v := pyLookup_dictSet_self _ _ _
    · calc pyLookup k (mergeKwargs (mergeStep (mergeKwargs (go, conf, false) s) (k, v)) t).1
          = pyLookup k (mergeStep (mergeKwargs (go, conf, false) s) (k, v)).1 := hfr₂.1
        _ = pyLookup k (mergeKwargs (go, conf, false) s).1 := by rw [hstep]
        _ = Option.none := hfr₁.1.trans hgo
    · exact mergeKwargs_rem_mono t _ (by rw [hstep])
  · intro hgo hconf hres
    have hcond : ¬ (pyLookup k (mergeKwargs (go, conf, false) s).1).isSome = true := by
      rw [hfr₁.1]; simp [hgo]
    have hcond2 : ¬ (pyLookup k (mergeKwargs (go, conf, false) s).2.1).isSome = true := by
      rw [hfr₁.2]; simp [hconf]
    have hcond3 : ¬ (¬ k = "NewExistentialFileName" ∧ ¬ k = "NeworbitFile") := by
      rcases hres with h | h <;> simp [h]
    have hstep : mergeStep (mergeKwargs (go, conf, false) s) (k, v) =
        mergeKwargs (go, conf, false) s := by
      unfold mergeStep
      rw [if_neg hcond, if_neg hcond2, if_neg hcond3]
    constructor
    · calc pyLookup k (mergeKwargs (mergeStep (mergeKwargs (go, conf, false) s) (k, v)) t).1
          = pyLookup k (mergeStep (mergeKwargs (go, conf, false) s) (k, v)).1 := hfr₂.1
        _ = pyLookup k (mergeKwargs (go, conf, false) s).1 := by rw [hstep]
        _ = Option.none := hfr₁.1.trans hgo
    · calc pyLookup k (mergeKwargs (mergeStep (mergeKwargs (go, conf, false) s) (k, v)) t).2.1
          = pyLookup k (mergeStep (mergeKwargs (go, conf, false) s) (k, v)).2.1 := hfr₂.2
        _ = pyLookup k (mergeKwargs (go, conf, false) s).2.1 := by rw [hstep]
        _ = Option.none := hfr₁.2.trans hconf

/-- Claim C7 witness: a two-key overlay hitting one known go-params key and one
excluded directive — the amended theorem's hypotheses hold and all four cases
apply at the key `"a"`. -/
theorem merge_characterization_witness :
    (("a", PyVal.num 1) ∈ [("a", PyVal.num 1), ("NeworbitFile", PyVal.str "o.dat")] ∧
     (([("a", PyVal.num 1), ("NeworbitFile", PyVal.str "o.dat")].map Prod.fst).Nodup)) ∧
    ((∀ v0, pyLookup "a" [("a", PyVal.num 0)] = some v0 →
      pyLookup "a" (mergeKwargs ([("a", PyVal.num 0)], ([] : PyDict), false)
        [("a", PyVal.num 1), ("NeworbitFile", PyVal.str "o.dat")]).1 = some (PyVal.num 1) ∧
      pyLookup "a" (mergeKwargs ([("a", PyVal.num 0)], ([] : PyDict), false)
        [("a", PyVal.num 1), ("NeworbitFile", PyVal.str "o.dat")]).2.1 =
          pyLookup "a" ([] : PyDict)) ∧
     (pyLookup "a" [("a", PyVal.num 0)] = Option.none →
      ∀ v0, pyLookup "a" ([] : PyDict) = some v0 →
      pyLookup "a" (mergeKwargs ([("a", PyVal.num 0)], ([] : PyDict), false)
        [("a", PyVal.num 1), ("NeworbitFile", PyVal.str "o.dat")]).2.1 = some (PyVal.num 1) ∧
      pyLookup "a" (mergeKwargs ([("a", PyVal.num 0)], ([] : PyDict), false)
        [("a", PyVal.num 1), ("NeworbitFile", PyVal.str "o.dat")]).1 = Option.none) ∧
     (pyLookup "a" [("a", PyVal.num 0)] = Option.none →
      pyLookup "a" ([] : PyDict) = Option.none →
      ¬ "a" = "NewExistentialFileName" → ¬ "a" = "NeworbitFile" →
      pyLookup "a" (mergeKwargs ([("a", PyVal.num 0)], ([] : PyDict), false)
        [("a", PyVal.num 1), ("NeworbitFile", PyVal.str "o.dat")]).2.1 = some (PyVal.num 1) ∧
      pyLookup "a" (mergeKwargs ([("a", PyVal.num 0)], ([] : PyDict), false)
        [("a", PyVal.num 1), ("NeworbitFile", PyVal.str "o.dat")]).1 = Option.none ∧
      (mergeKwargs ([("a", PyVal.num 0)], ([] : PyDict), false)
        [("a", PyVal.num 1), ("NeworbitFile", PyVal.str "o.dat")]).2.2 = true) ∧
     (pyLookup "a" [("a", PyVal.num 0)] = Option.none →
      pyLookup "a" ([] : PyDict) = Option.none →
      ("a" = "NewExistentialFileName" ∨ "a" = "NeworbitFile") →
      pyLookup "a" (mergeKwargs ([("a", PyVal.num 0)], ([] : PyDict), false)
        [("a", PyVal.num 1), ("NeworbitFile", PyVal.str "o.dat")]).1 = Option.none ∧
      pyLookup "a" (mergeKwargs ([("a", PyVal.num 0)], ([] : PyDict), false)
        [("a", PyVal.num 1), ("NeworbitFile", PyVal.str "o.dat")]).2.1 = Option.none)) :=
  ⟨⟨by decide, by decide⟩,
   merge_characterization_amended [("a", PyVal.num 0)] [] _ "a" (PyVal.num 1)
     (by decide) (by decide)⟩

/- ********************  Claim C4: filename versioning  ******************** -/

/-- Python strings, modelled as their character sequences for the filename
manipulation code. -/
abbrev PyStr := List Char

/-- Python `s.split(c)` for a one-character separator `c` (the source splits on
`"_"`, `"."` and `"/"`). -/
def pySplitChars (c : Char) : PyStr → List PyStr
  | [] => [[]]
  | x :: xs =>
    if x = c then [] :: pySplitChars c xs
    else
      match pySplitChars c xs with
      | [] => [[x]]
      | y :: ys => (x :: y) :: ys

/-- Python `c.join(parts)` for a one-character separator. -/
def pyJoinChars (c : Char) : List PyStr → PyStr
  | [] => []
  | [x] => x
  | x :: xs => x ++ c :: pyJoinChars c xs

/-- Digit-run parser used to model Python `int(s)`: accumulates decimal digits,
fails on the first non-digit. -/
def pyDigitsAux : List Char → Nat → Option Nat
  | [], acc => some acc
  | c :: cs, acc =>
    if c.isDigit then pyDigitsAux cs (acc * 10 + (c.toNat - 48)) else Option.none

/-- Model of Python `int(s)` on a filename fragment: a non-empty digit string,
optionally preceded by a minus sign, parses to the integer; everything else
raises (here: `Option.none`, consumed by the `try/except` at the call site).
Python also accepts surrounding whitespace and an explicit plus sign, forms
that cannot occur in the versioned filenames handled here. -/
def pyInt? (s : PyStr) : Option Int :=
  match s with
  | [] => Option.none
  | '-' :: cs =>
    match cs with
    | [] => Option.none
    | _ => (pyDigitsAux cs 0).map (fun n => -(n : Int))
  | cs => (pyDigitsAux cs 0).map (fun n => (n : Int))

/-- Python `str(k)` for an int, as a character list. -/
def pyStrInt (k : Int) : PyStr := (toString k).data

/-- Embeds the suffix probe `int(path.split("_")[-1].split(".")[0])` of
`Athena.__init__` lines 215-216 (and its twins at 249-250 and 312-313). -/
def versionSuffixStart (path : PyStr) : Option Int :=
  pyInt? ((pySplitChars '.' ((pySplitChars '_' path).getLastD [])).headD [])

/-- Embeds the fallback rename
`".".join(path.split(".")[:-1]) + "_1." + path.split(".")[-1]`
of `__init__` line 220 (twins at 254 and 317). -/
def insertSuffixOne (path : PyStr) : PyStr :=
  pyJoinChars '.' (pySplitChars '.' path).dropLast ++ ('_' :: '1' :: '.' :: []) ++
    (pySplitChars '.' path).getLastD []

/-- Embeds the loop-body rename
`"_".join(path.split("_")[:-1]) + "_" + str(k) + "." + path.split(".")[-1]`
of `__init__` line 225 (twins at 258 and 322). -/
def nextVersionName (path : PyStr) (k : Int) : PyStr :=
  pyJoinChars '_' (pySplitChars '_' path).dropLast ++ ('_' :: pyStrInt k) ++
    ('.' :: (pySplitChars '.' path).getLastD [])

/-- Embeds the probing loop `while os.path.isfile(path): k += 1; path = ...`
of `__init__` lines 223-225 (twins at 256-258 and 320-322).  The filesystem is
the finite list `fs` of existing paths; successive candidate names are pairwise
distinct, so at most `fs.length` of them can exist and fuel `fs.length + 1`
always suffices for the loop to exit. -/
def probeVersions (fs : List PyStr) : Nat → Int → PyStr → PyStr
  | 0, _, path => path
  | fuel + 1, k, path =>
    if path ∈ fs then probeVersions fs fuel (k + 1) (nextVersionName path (k + 1))
    else path

/-- Embeds the `try/except` suffix start plus the probing loop
(`__init__` lines 213-225, twins at 247-258 and 310-322): parse a trailing
`_<int>` suffix (starting there if it parses), otherwise fall back to start 1
and insert `_1` into the name; then probe for the first free name. -/
def versionFile (fs : List PyStr) (path : PyStr) : PyStr :=
  match versionSuffixStart path with
  | some k => probeVersions fs (fs.length + 1) k path
  | Option.none => probeVersions fs (fs.length + 1) 1 (insertSuffixOne path)

/-- Whether `sep` is an initial run of `l` (helper for the multi-character
split below). -/
def leadsWith : PyStr → PyStr → Bool
  | [], _ => true
  | _ :: _, [] => false
  | p :: ps, q :: qs => p = q && leadsWith ps qs

/-- Python `s.split(sep)` for a multi-character separator (used by the
`"Saved_Telescope_Dicts"` path surgery on lines 209-210). -/
def pySplitOnStrAux (sep : PyStr) (l : PyStr) (acc : PyStr) : List PyStr :=
  match l with
  | [] => [acc.reverse]
  | c :: cs =>
    if _h : 0 < sep.length ∧ leadsWith sep (c :: cs) = true then
      acc.reverse :: pySplitOnStrAux sep (List.drop sep.length (c :: cs)) []
    else pySplitOnStrAux sep cs (c :: acc)
termination_by l.length
decreasing_by
  · simp only [List.length_drop, List.length_cons]
    omega
  · simp only [List.length_cons]
    omega

/-- Python `s.split(sep)` for a multi-character separator. -/
def pySplitOnStr (sep : PyStr) (l : PyStr) : List PyStr := pySplitOnStrAux sep l []

/-- Embeds the whole three-branch versioning of one cached artifact
(`__init__` lines 203-225 for the tesselation file; the same code appears at
237-258 for the orbit file and 303-322 for the save file): nothing happens
unless `MUTATED` and the target exists; an explicit `New...File` directive is
taken verbatim; a `NewExistentialFileName` derives the sibling name by
substring surgery; otherwise the parse-and-probe versioning runs. -/
def versionArtifactFile (fs : List PyStr) (SYNEXPATH dirSegment targetExt : PyStr)
    (MUTATED : Bool) (newFile newExistentialFileName : Option PyStr)
    (path : PyStr) : PyStr :=
  if MUTATED ∧ path ∈ fs then
    match newFile with
    | some p => p
    | Option.none =>
      match newExistentialFileName with
      | some nef =>
        let p1 := SYNEXPATH ++ dirSegment ++
          (pySplitOnStr ("Saved_Telescope_Dicts".data) nef).getLastD []
        pyJoinChars '.' (pySplitChars '.' p1).dropLast ++ ('.' :: targetExt)
      | Option.none => versionFile fs path
  else path

/-- The claimed shape of the i-th version of base name `X` with extension `e`:
`X_i.e`. -/
def versionName (X : PyStr) (i : Nat) (e : PyStr) : PyStr :=
  X ++ '_' :: pyStrInt (Int.ofNat i) ++ '.' :: e

/-- Claim C4 counterexample: take `X = "f_2"`, extension `tess`, with
`X.ext = f_2.tess` and its one prior version `X_1.ext = f_2_1.tess` on disk and
`X_2.ext = f_2_2.tess` absent.  The claim demands the result `f_2_2.tess`, but
the trailing `_2` of the base name parses as an integer, so the algorithm
probes `f_3.tess` instead. -/
theorem versionPath_parsed_suffix_counterexample :
    versionArtifactFile ["f_2.tess".data, "f_2_1.tess".data] [] [] "tess".data
        true Option.none Option.none "f_2.tess".data = "f_3.tess".data ∧
    "f_2.tess".data ∈ ["f_2.tess".data, "f_2_1.tess".data] ∧
    "f_2_1.tess".data ∈ ["f_2.tess".data, "f_2_1.tess".data] ∧
    versionName "f_2".data 1 "tess".data = "f_2_1.tess".data ∧
    versionName "f_2".data 2 "tess".data ∉ ["f_2.tess".data, "f_2_1.tess".data] ∧
    "f_3.tess".data ≠ versionName "f_2".data 2 "tess".data := by
  refine ⟨?_, ?_, ?_, ?_, ?_, ?_⟩ <;> decide

theorem pySplitChars_ne_nil (c : Char) (l : PyStr) : pySplitChars c l ≠ [] := by
  cases l with
  | nil => simp [pySplitChars]
  | cons x xs =>
    simp only [pySplitChars]
    split
    · simp
    · split <;> simp

theorem pySplitChars_append (c : Char) (a b : PyStr) :
    pySplitChars c (a ++ c :: b) = pySplitChars c a ++ pySplitChars c b := by
  induction a with
  | nil => simp [pySplitChars]
  | cons x xs ih =>
    by_cases hx : x = c
    · simp [pySplitChars, hx, ih]
    · rcases hsp : pySplitChars c xs with _ | ⟨y, ys⟩
      · exact absurd hsp (pySplitChars_ne_nil c xs)
      · simp [pySplitChars, hx, ih, hsp]

theorem pySplitChars_not_mem (c : Char) (l : PyStr) (h : c ∉ l) :
    pySplitChars c l = [l] := by
  induction l with
  | nil => rfl
  | cons x xs ih =>
    simp only [List.mem_cons, not_or] at h
    have hx : ¬ x = c := fun hh => h.1 hh.symm
    simp only [pySplitChars, if_neg hx, ih h.2]

theorem pyJoin_split (c : Char) (l : PyStr) : pyJoinChars c (pySplitChars c l) = l := by
  induction l with
  | nil => rfl
  | cons x xs ih =>
    by_cases hx : x = c
    · subst hx
      rcases hsp : pySplitChars x xs with _ | ⟨y, ys⟩
      · exact absurd hsp (pySplitChars_ne_nil x xs)
      · rw [hsp] at ih
        simp only [pySplitChars, if_pos rfl, hsp]
        simp [pyJoinChars, ih]
    · rcases hsp : pySplitChars c xs with _ | ⟨y, ys⟩
      · exact absurd hsp (pySplitChars_ne_nil c xs)
      · rw [hsp] at ih
        simp only [pySplitChars, if_neg hx, hsp]
        cases ys with
        | nil =>
          simp only [pyJoinChars] at ih ⊢
          rw [ih]
        | cons z zs =>
          simp only [pyJoinChars] at ih ⊢
          rw [List.cons_append, ih]

theorem digit_chars_ok : ∀ m, m < 10 → ¬ Nat.digitChar m = '_' ∧ ¬ Nat.digitChar m = '.' := by
  decide

theorem toDigitsCore_chars (f : Nat) : ∀ (n : Nat) (ds : List Char),
    (∀ c ∈ ds, ¬ c = '_' ∧ ¬ c = '.') →
    ∀ c ∈ Nat.toDigitsCore 10 f n ds, ¬ c = '_' ∧ ¬ c = '.' := by
  induction f with
  | zero => intro n ds hds c hc; exact hds c hc
  | succ f ih =>
    intro n ds hds c hc
    simp only [Nat.toDigitsCore] at hc
    have hd : ∀ c' ∈ (Nat.digitChar (n % 10) :: ds), ¬ c' = '_' ∧ ¬ c' = '.' := by
      intro c' hc'
      rcases List.mem_cons.mp hc' with h | h
      · rw [h]; exact digit_chars_ok (n % 10) (Nat.mod_lt n (by decide))
      · exact hds c' h
    split at hc
    · exact hd c hc
    · exact ih (n / 10) _ hd c hc

theorem pyStrInt_ofNat (n : Nat) : pyStrInt (Int.ofNat n) = Nat.toDigits 10 n := rfl

theorem pyStrInt_chars (n : Nat) :
    '_' ∉ pyStrInt (Int.ofNat n) ∧ '.' ∉ pyStrInt (Int.ofNat n) := by
  rw [pyStrInt_ofNat]
  unfold Nat.toDigits
  constructor
  · intro h
    exact (toDigitsCore_chars (n + 1) n [] (by intro c hc; simp at hc) '_' h).1 rfl
  · intro h
    exact (toDigitsCore_chars (n + 1) n [] (by intro c hc; simp at hc) '.' h).2 rfl

theorem nextVersionName_versionName (X e : PyStr) (j k : Nat)
    (he1 : '_' ∉ e) (he2 : '.' ∉ e) :
    nextVersionName (versionName X j e) (Int.ofNat k) = versionName X k e := by
  have hden_us : '_' ∉ (pyStrInt (Int.ofNat j) ++ '.' :: e) := by
    intro h
    rcases List.mem_append.mp h with h | h
    · exact (pyStrInt_chars j).1 h
    · rcases List.mem_cons.mp h with h | h
      · exact absurd h (by decide)
      · exact he1 h
  have hform : versionName X j e = X ++ '_' :: (pyStrInt (Int.ofNat j) ++ '.' :: e) := by
    unfold versionName
    simp
  have hform2 : versionName X j e = (X ++ '_' :: pyStrInt (Int.ofNat j)) ++ '.' :: e := by
    unfold versionName
    simp
  unfold nextVersionName
  rw [hform, pySplitChars_append, pySplitChars_not_mem '_' _ hden_us,
    List.dropLast_concat, pyJoin_split]
  rw [← hform, hform2, pySplitChars_append, pySplitChars_not_mem '.' e he2,
    List.getLastD_concat]
  unfold versionName
  simp

theorem insertSuffixOne_eq (X e : PyStr) (he2 : '.' ∉ e) :
    insertSuffixOne (X ++ '.' :: e) = versionName X 1 e := by
  unfold insertSuffixOne
  rw [pySplitChars_append, pySplitChars_not_mem '.' e he2, List.dropLast_concat,
    List.getLastD_concat, pyJoin_split]
  unfold versionName
  have h1 : pyStrInt (Int.ofNat 1) = ['1'] := rfl
  rw [h1]
  simp

theorem probeVersions_reaches (fs : List PyStr) (X e : PyStr) (N : Nat)
    (he1 : '_' ∉ e) (he2 : '.' ∉ e)
    (hvers : ∀ i : Nat, 1 ≤ i → i ≤ N → versionName X i e ∈ fs)
    (hfree : versionName X (N + 1) e ∉ fs) :
    ∀ fuel j, 1 ≤ j → j ≤ N + 1 → N + 1 - j < fuel →
      probeVersions fs fuel (Int.ofNat j) (versionName X j e) = versionName X (N + 1) e := by
  intro fuel
  induction fuel with
  | zero => intro j _ _ h3; omega
  | succ f ih =>
    intro j h1 h2 h3
    by_cases hj : j = N + 1
    · subst hj
      simp only [probeVersions]
      rw [if_neg hfree]
    · have hjN : j ≤ N := by omega
      have hmem : versionName X j e ∈ fs := hvers j h1 hjN
      simp only [probeVersions]
      rw [if_pos hmem]
      have hcast : (Int.ofNat j) + 1 = Int.ofNat (j + 1) := by
        exact (Int.ofNat_succ j).symm
      rw [hcast, nextVersionName_versionName X e j (j + 1) he1 he2]
      exact ih (j + 1) (by omega) (by omega) (by omega)

/-- Claim C4 (amended): when the configuration is mutated, no override directive
is given, and the target `X.ext` exists, then — provided the trailing
underscore segment of `X.ext` does not parse as an integer (this covers the
claimed "no suffix present" insertion of `_1` and the "malformed suffix"
fallback, which is indeed never fatal) — if all prior versions
`X_1.ext..X_N.ext` exist and `X_{N+1}.ext` does not, the algorithm returns
`X_{N+1}.ext`.  When the trailing segment does parse (e.g. `f_2.tess`), probing
instead resumes from that number and replaces it — see the counterexample. -/
theorem versionPath_monotone_amended (fs : List PyStr) (SY dirSeg ext X e : PyStr) (N : Nat)
    (he1 : '_' ∉ e) (he2 : '.' ∉ e)
    (hparse : versionSuffixStart (X ++ '.' :: e) = Option.none)
    (hmem0 : (X ++ '.' :: e) ∈ fs)
    (hN : N ≤ fs.length)
    (hvers : ∀ i : Nat, 1 ≤ i → i ≤ N → versionName X i e ∈ fs)
    (hfree : versionName X (N + 1) e ∉ fs) :
    versionArtifactFile fs SY dirSeg ext true Option.none Option.none (X ++ '.' :: e) =
      versionName X (N + 1) e := by
  unfold versionArtifactFile
  rw [if_pos ⟨rfl, hmem0⟩]
  unfold versionFile
  rw [hparse, insertSuffixOne_eq X e he2]
  exact probeVersions_reaches fs X e N he1 he2 hvers hfree (fs.length + 1) 1
    (le_refl 1) (by omega) (by omega)

/-- Claim C4 witness: base name `g`, extension `tess`, one prior version on
disk — the amended theorem applies and returns `g_2.tess`. -/
theorem versionPath_monotone_witness :
    ('_' ∉ "tess".data ∧ '.' ∉ "tess".data ∧
     versionSuffixStart ("g".data ++ '.' :: "tess".data) = Option.none ∧
     ("g".data ++ '.' :: "tess".data) ∈ ["g.tess".data, "g_1.tess".data] ∧
     1 ≤ (["g.tess".data, "g_1.tess".data] : List PyStr).length ∧
     (∀ i : Nat, 1 ≤ i → i ≤ 1 →
       versionName "g".data i "tess".data ∈ ["g.tess".data, "g_1.tess".data]) ∧
     versionName "g".data 2 "tess".data ∉ ["g.tess".data, "g_1.tess".data]) ∧
    versionArtifactFile ["g.tess".data, "g_1.tess".data] [] [] "tess".data
        true Option.none Option.none ("g".data ++ '.' :: "tess".data) =
      versionName "g".data 2 "tess".data :=
  ⟨⟨by decide, by decide, by decide, by decide, by decide,
    by
      intro i h1 h2
      have hi : i = 1 := le_antisymm h2 h1
      subst hi
      decide,
    by decide⟩,
   versionPath_monotone_amended ["g.tess".data, "g_1.tess".data] [] [] "tess".data
     "g".data "tess".data 1 (by decide) (by decide) (by decide) (by decide) (by decide)
     (by
       intro i h1 h2
       have hi : i = 1 := le_antisymm h2 h1
       subst hi
       decide)
     (by decide)⟩

/- ********************  Claims C3 and C5: the Kuiper accumulator loop  ******************** -/

/-- The double-precision value of `2.*np.pi` (`GetKuiper` line 445). -/
def two_pi : ℚ := 7074237752028440 / 1125899906842624

/-- Python's float `%` for a positive modulus: `a - b*floor(a/b)`. -/
def pyMod (a b : ℚ) : ℚ := a - b * (⌊a / b⌋ : ℚ)

/-- The source fields read by the tile-membership test (`GetKuiper` line 502). -/
structure XraySource where
  beta : ℚ
  lamda : ℚ
deriving DecidableEq

/-- One tile of the reduced tile dictionary: integer key plus the angular
bounding box read on line 502. -/
structure Tile where
  id : ℤ
  beta_range : ℚ × ℚ
  lambda_range : ℚ × ℚ
deriving DecidableEq

/-- Embeds the membership test of `GetKuiper` line 502 (strict inequalities on
both coordinates). -/
def sourceInTile (src : XraySource) (tile : Tile) : Bool :=
  decide (src.beta < tile.beta_range.2) && decide (src.beta > tile.beta_range.1) &&
    decide (src.lamda < tile.lambda_range.2) && decide (src.lamda > tile.lambda_range.1)

/-- The mutable state of the `GetKuiper` tile loop (`GetKuiper` lines 472-546).
`detection_p_val` and `tile_detection_p_val` are `Option` because, unlike the
other carried statistics, they are given no initial value before the loop
(lines 493-496 initialise only `exposure_kuiper`, `exposure_p_val`,
`tile_p_val` and `n_photons`); referencing them while unassigned is a Python
NameError.  The five pre-loop lists that the loop never touches
(`exposure_xray_time`, `exposure_CTR`, `exposure_tile_probs`,
`exposure_tile_xray_time`, `exposure_tile_CTR`) and the dead histogram locals
of lines 520-524 are omitted. -/
structure KuiperState where
  kuipers : List ℚ
  n_photons_list : List ℕ
  n_exposures : ℕ
  exposure_photons : ℕ
  exposure_t_is : List ℚ
  exposure_phi_is : List ℚ
  exposure_tiles : List ℤ
  tile_kuiper_p_val_trace : List ℚ
  exposure_kuiper_trace : List ℚ
  exposure_kuiper_p_val_trace : List ℚ
  detection_kuiper_p_val_trace : List ℚ
  accum_exposure_photons_trace : List ℕ
  exposure_photons_trace : List ℕ
  tile_detection_p_val_trace : List ℚ
  exposure_kuiper : ℚ
  exposure_p_val : ℚ
  tile_p_val : ℚ
  n_photons : ℕ
  detection_p_val : Option ℚ
  tile_detection_p_val : Option ℚ
  ts : ℚ
  te : ℚ
deriving DecidableEq

/-- The loop state just before the first iteration (`GetKuiper` lines 472-496
and 439-440): `kuipers = [0.1]`, `exposure_kuiper = 0.01`, the p-values at 1,
empty traces, the detection p-values unassigned, and the first latency window
`[ts0, ts0 + T_lat]`. -/
def initKuiperState (ts0 T_lat : ℚ) : KuiperState where
  kuipers := [1/10]
  n_photons_list := []
  n_exposures := 0
  exposure_photons := 0
  exposure_t_is := []
  exposure_phi_is := []
  exposure_tiles := []
  tile_kuiper_p_val_trace := []
  exposure_kuiper_trace := []
  exposure_kuiper_p_val_trace := []
  detection_kuiper_p_val_trace := []
  accum_exposure_photons_trace := []
  exposure_photons_trace := []
  tile_detection_p_val_trace := []
  exposure_kuiper := 1/100
  exposure_p_val := 1
  tile_p_val := 1
  n_photons := 0
  detection_p_val := Option.none
  tile_detection_p_val := Option.none
  ts := ts0
  te := ts0 + T_lat

/-- Embeds one iteration of the tile loop, `GetKuiper` lines 500-546.
`kuiperFn` is astropy's `kuiper` statistic applied against the uniform CDF on
`[0, 2π)` (an external oracle returning the pair `(statistic, p-value)`);
`t_is_merger`/`phi_is_merger` are the photon arrival times and phases fixed
before the loop.  In the in-tile branch the photons of the current window are
pooled, both Kuiper tests are recomputed, and the two detection p-values are
bound (the `else` arm of line 530 is kept although `n_exposures > 0` always
holds after the increment); in both branches the seven traces are appended and
the window advances.  Appending an unassigned detection p-value raises
NameError. -/
def kuiperTileStep (kuiperFn : List ℚ → ℚ × ℚ) (src : XraySource)
    (t_is_merger phi_is_merger : List ℚ) (T_lat : ℚ)
    (st : KuiperState) (tile : Tile) : Except PyErr KuiperState :=
  let st1 :=
    if sourceInTile src tile then
      let t_is := t_is_merger.filter (fun t => decide (st.ts < t) && decide (t < st.te))
      let phi_is := ((phi_is_merger.zip t_is_merger).filter
          (fun pt => decide (st.ts < pt.2) && decide (pt.2 < st.te))).map
        (fun pt => pyMod pt.1 two_pi)
      let n_photons := t_is.length
      let tk := kuiperFn phi_is
      let n_exposures := st.n_exposures + 1
      let exposure_phi_is := st.exposure_phi_is ++ phi_is
      let ek := kuiperFn exposure_phi_is
      let dvals :=
        if n_exposures > 0 then
          (1 - (1 - ek.2) ^ (n_exposures * 518400),
           1 - (1 - tk.2) ^ (n_exposures * 518400))
        else (1 - (1 - ek.2), 1 - (1 - tk.2))
      { st with
        n_photons_list := st.n_photons_list ++ [n_photons],
        kuipers := st.kuipers ++ [tk.1],
        tile_p_val := tk.2,
        n_exposures := n_exposures,
        exposure_tiles := st.exposure_tiles ++ [tile.id],
        exposure_photons := st.exposure_photons + n_photons,
        exposure_t_is := st.exposure_t_is ++ t_is,
        exposure_phi_is := exposure_phi_is,
        exposure_kuiper := ek.1,
        exposure_p_val := ek.2,
        n_photons := n_photons,
        detection_p_val := some dvals.1,
        tile_detection_p_val := some dvals.2 }
    else st
  match st1.tile_detection_p_val with
  | Option.none => Except.error (PyErr.nameError "tile_detection_p_val")
  | some tdp =>
    match st1.detection_p_val with
    | Option.none => Except.error (PyErr.nameError "detection_p_val")
    | some dp =>
      Except.ok { st1 with
        tile_kuiper_p_val_trace := st1.tile_kuiper_p_val_trace ++ [st1.tile_p_val],
        tile_detection_p_val_trace := st1.tile_detection_p_val_trace ++ [tdp],
        exposure_kuiper_trace := st1.exposure_kuiper_trace ++ [st1.exposure_kuiper],
        exposure_kuiper_p_val_trace := st1.exposure_kuiper_p_val_trace ++ [st1.exposure_p_val],
        detection_kuiper_p_val_trace := st1.detection_kuiper_p_val_trace ++ [dp],
        accum_exposure_photons_trace := st1.accum_exposure_photons_trace ++ [st1.exposure_photons],
        exposure_photons_trace := st1.exposure_photons_trace ++ [st1.n_photons],
        ts := st1.te,
        te := st1.te + T_lat }

/-- Embeds the whole tile loop `for tile in TileDict_reduced` of `GetKuiper`
lines 500-546, threading the state tile by tile and propagating exceptions. -/
def kuiperLoop (kuiperFn : List ℚ → ℚ × ℚ) (src : XraySource)
    (t_is_merger phi_is_merger : List ℚ) (T_lat : ℚ) :
    KuiperState → List Tile → Except PyErr KuiperState
  | st, [] => Except.ok st
  | st, tile :: rest =>
    match kuiperTileStep kuiperFn src t_is_merger phi_is_merger T_lat st tile with
    | Except.error e => Except.error e
    | Except.ok st' => kuiperLoop kuiperFn src t_is_merger phi_is_merger T_lat st' rest

/-- Claim C3: the carry-forward append is broken when the very first consumed
tile does not contain the source — the detection p-values were never assigned
(only `exposure_kuiper`, `exposure_p_val`, `tile_p_val`, `n_photons` get
initial values on lines 493-496), so line 537 raises NameError instead of
appending, and no full-length trace is produced.  Concrete failing input:
source at `(beta, lamda) = (0, 0)`, single tile with both ranges `(1, 2)`. -/
theorem getKuiper_carry_forward_nameError :
    kuiperLoop (fun _ => ((0 : ℚ), (1 : ℚ))) ⟨0, 0⟩ [] [] 1 (initKuiperState 0 1)
        [⟨0, (1, 2), (1, 2)⟩] =
      Except.error (PyErr.nameError "tile_detection_p_val") := by
  rfl

/-- A quantity lying in the p-value range `[0, 1]`. -/
def pvalBounded (q : ℚ) : Prop := 0 ≤ q ∧ q ≤ 1

theorem one_sub_pow_bounded (p : ℚ) (hp : pvalBounded p) (m : ℕ) :
    pvalBounded (1 - (1 - p) ^ m) := by
  obtain ⟨h0, h1⟩ := hp
  have hb0 : (0 : ℚ) ≤ 1 - p := by linarith
  have hb1 : 1 - p ≤ 1 := by linarith
  have hp0 : (0 : ℚ) ≤ (1 - p) ^ m := pow_nonneg hb0 m
  have hp1 : (1 - p) ^ m ≤ 1 := pow_le_one₀ hb0 hb1
  exact ⟨by linarith, by linarith⟩

/-- The run invariant of the tile loop: every held p-value and every element of
the four p-value traces lies in `[0, 1]`, and once at least one exposure has
happened, the stored detection p-values carry the trials-corrected formula
`1 - (1 - p)^(n_exposures*518400)` of `GetKuiper` lines 528-529. -/
def KuiperInv (st : KuiperState) : Prop :=
  pvalBounded st.tile_p_val ∧
  pvalBounded st.exposure_p_val ∧
  (∀ q, st.detection_p_val = some q → pvalBounded q) ∧
  (∀ q, st.tile_detection_p_val = some q → pvalBounded q) ∧
  (∀ q ∈ st.tile_kuiper_p_val_trace, pvalBounded q) ∧
  (∀ q ∈ st.tile_detection_p_val_trace, pvalBounded q) ∧
  (∀ q ∈ st.exposure_kuiper_p_val_trace, pvalBounded q) ∧
  (∀ q ∈ st.detection_kuiper_p_val_trace, pvalBounded q) ∧
  (0 < st.n_exposures →
    st.detection_p_val = some (1 - (1 - st.exposure_p_val) ^ (st.n_exposures * 518400)) ∧
    st.tile_detection_p_val = some (1 - (1 - st.tile_p_val) ^ (st.n_exposures * 518400)))

theorem initKuiperState_inv (ts0 T_lat : ℚ) : KuiperInv (initKuiperState ts0 T_lat) := by
  refine ⟨⟨?_, ?_⟩, ⟨?_, ?_⟩, ?_, ?_, ?_, ?_, ?_, ?_, ?_⟩
  · show (0 : ℚ) ≤ 1; norm_num
  · show (1 : ℚ) ≤ 1; norm_num
  · show (0 : ℚ) ≤ 1; norm_num
  · show (1 : ℚ) ≤ 1; norm_num
  · intro q hq; exact absurd hq (by simp [initKuiperState])
  · intro q hq; exact absurd hq (by simp [initKuiperState])
  · intro q hq; exact absurd hq (by simp [initKuiperState])
  · intro q hq; exact absurd hq (by simp [initKuiperState])
  · intro q hq; exact absurd hq (by simp [initKuiperState])
  · intro q hq; exact absurd hq (by simp [initKuiperState])
  · intro hn; exact absurd hn (by simp [initKuiperState])

theorem kuiperTileStep_inv (kuiperFn : List ℚ → ℚ × ℚ) (src : XraySource)
    (tis phis : List ℚ) (T_lat : ℚ) (st st' : KuiperState) (tile : Tile)
    (hk : ∀ l, pvalBounded (kuiperFn l).2)
    (hst : KuiperInv st)
    (h : kuiperTileStep kuiperFn src tis phis T_lat st tile = Except.ok st') :
    KuiperInv st' := by
  obtain ⟨htp, hep, hdet, htdet, htr1, htr2, htr3, htr4, hform⟩ := hst
  unfold kuiperTileStep at h
  cases hin : sourceInTile src tile with
  | false =>
    rw [hin] at h
    simp only [Bool.false_eq_true, if_false] at h
    rcases htd : st.tile_detection_p_val with _ | tdp
    · rw [htd] at h
      exact absurd h (by simp)
    · rcases hd : st.detection_p_val with _ | dp
      · rw [htd, hd] at h
        exact absurd h (by simp)
      · rw [htd, hd] at h
        rw [Except.ok.injEq] at h
        subst h
        refine ⟨htp, hep, ?_, ?_, ?_, ?_, ?_, ?_, ?_⟩
        · intro q hq
          injection hq with hq
          rw [← hq]
          exact hdet dp hd
        · intro q hq
          injection hq with hq
          rw [← hq]
          exact htdet tdp htd
        · intro q hq
          rcases List.mem_append.mp hq with hq | hq
          · exact htr1 q hq
          · rw [List.mem_singleton.mp hq]; exact htp
        · intro q hq
          rcases List.mem_append.mp hq with hq | hq
          · exact htr2 q hq
          · rw [List.mem_singleton.mp hq]; exact htdet tdp htd
        · intro q hq
          rcases List.mem_append.mp hq with hq | hq
          · exact htr3 q hq
          · rw [List.mem_singleton.mp hq]; exact hep
        · intro q hq
          rcases List.mem_append.mp hq with hq | hq
          · exact htr4 q hq
          · rw [List.mem_singleton.mp hq]; exact hdet dp hd
        · intro hn
          have hf := hform hn
          rw [hd, htd] at hf
          exact hf
  | true =>
    rw [hin] at h
    simp only [if_true] at h
    have hpos : st.n_exposures + 1 > 0 := Nat.succ_pos _
    rw [if_pos hpos] at h
    rw [Except.ok.injEq] at h
    subst h
    have hkt := hk (((phis.zip tis).filter
        (fun pt => decide (st.ts < pt.2) && decide (pt.2 < st.te))).map
      (fun pt => pyMod pt.1 two_pi))
    have hke := hk (st.exposure_phi_is ++ ((phis.zip tis).filter
        (fun pt => decide (st.ts < pt.2) && decide (pt.2 < st.te))).map
      (fun pt => pyMod pt.1 two_pi))
    refine ⟨hkt, hke, ?_, ?_, ?_, ?_, ?_, ?_, ?_⟩
    · intro q hq
      rw [Option.some.injEq] at hq
      rw [← hq]
      exact one_sub_pow_bounded _ hke _
    · intro q hq
      rw [Option.some.injEq] at hq
      rw [← hq]
      exact one_sub_pow_bounded _ hkt _
    · intro q hq
      rcases List.mem_append.mp hq with hq | hq
      · exact htr1 q hq
      · rw [List.mem_singleton.mp hq]; exact hkt
    · intro q hq
      rcases List.mem_append.mp hq with hq | hq
      · exact htr2 q hq
      · rw [List.mem_singleton.mp hq]
        exact one_sub_pow_bounded _ hkt _
    · intro q hq
      rcases List.mem_append.mp hq with hq | hq
      · exact htr3 q hq
      · rw [List.mem_singleton.mp hq]; exact hke
    · intro q hq
      rcases List.mem_append.mp hq with hq | hq
      · exact htr4 q hq
      · rw [List.mem_singleton.mp hq]
        exact one_sub_pow_bounded _ hke _
    · intro _
      exact ⟨rfl, rfl⟩

theorem kuiperLoop_inv (kuiperFn : List ℚ → ℚ × ℚ) (src : XraySource)
    (tis phis : List ℚ) (T_lat : ℚ)
    (hk : ∀ l, pvalBounded (kuiperFn l).2) :
    ∀ (tiles : List Tile) (st st' : KuiperState), KuiperInv st →
      kuiperLoop kuiperFn src tis phis T_lat st tiles = Except.ok st' →
      KuiperInv st' := by
  intro tiles
  induction tiles with
  | nil =>
    intro st st' hst h
    unfold kuiperLoop at h
    rw [Except.ok.injEq] at h
    subst h
    exact hst
  | cons tile rest ih =>
    intro st st' hst h
    unfold kuiperLoop at h
    rcases hstep : kuiperTileStep kuiperFn src tis phis T_lat st tile with e | st1
    · rw [hstep] at h
      exact absurd h (by simp)
    · rw [hstep] at h
      exact ih st1 st' (kuiperTileStep_inv kuiperFn src tis phis T_lat st st1 tile hk hst hstep) h

/-- Claim C5: over any synthetic photon stream and tile sequence, assuming
astropy's `kuiper` returns p-values in `[0, 1]`, every per-tile, per-exposure
and detection p-value traced by a completed `GetKuiper` tile loop lies in
`[0, 1]`, and after any exposure the stored detection p-values equal
`1 - (1 - p)^(n_exposures * 518400)` — the trials-corrected formula with the
fixed constant `K = 518400` of `GetKuiper` lines 528-529.  (No explicit
clamping exists in the code, and none is needed: with `p ∈ [0,1]` the
exponentiation cannot leave `[0, 1]`.) -/
theorem getKuiper_p_val_formula_and_bounds (kuiperFn : List ℚ → ℚ × ℚ) (src : XraySource)
    (tis phis : List ℚ) (T_lat ts0 : ℚ) (tiles : List Tile) (st : KuiperState)
    (hk : ∀ l, 0 ≤ (kuiperFn l).2 ∧ (kuiperFn l).2 ≤ 1)
    (hrun : kuiperLoop kuiperFn src tis phis T_lat (initKuiperState ts0 T_lat) tiles =
      Except.ok st) :
    (∀ q ∈ st.tile_kuiper_p_val_trace, 0 ≤ q ∧ q ≤ 1) ∧
    (∀ q ∈ st.tile_detection_p_val_trace, 0 ≤ q ∧ q ≤ 1) ∧
    (∀ q ∈ st.exposure_kuiper_p_val_trace, 0 ≤ q ∧ q ≤ 1) ∧
    (∀ q ∈ st.detection_kuiper_p_val_trace, 0 ≤ q ∧ q ≤ 1) ∧
    (0 < st.n_exposures →
      st.detection_p_val = some (1 - (1 - st.exposure_p_val) ^ (st.n_exposures * 518400)) ∧
      st.tile_detection_p_val = some (1 - (1 - st.tile_p_val) ^ (st.n_exposures * 518400))) := by
  have hinv := kuiperLoop_inv kuiperFn src tis phis T_lat hk tiles _ st
    (initKuiperState_inv ts0 T_lat) hrun
  exact ⟨hinv.2.2.2.2.1, hinv.2.2.2.2.2.1, hinv.2.2.2.2.2.2.1,
    hinv.2.2.2.2.2.2.2.1, hinv.2.2.2.2.2.2.2.2⟩

/-- Claim C5 witness: the constant oracle returning p-value 1 satisfies the
bound hypothesis, the empty tile run completes, and the conclusion holds at the
resulting state. -/
theorem getKuiper_p_val_bounds_witness :
    (∀ l : List ℚ, 0 ≤ ((fun _ => ((0 : ℚ), (1 : ℚ))) l).2 ∧
      ((fun _ => ((0 : ℚ), (1 : ℚ))) l).2 ≤ 1) ∧
    (kuiperLoop (fun _ => ((0 : ℚ), (1 : ℚ))) ⟨0, 0⟩ [] [] 1 (initKuiperState 0 1) [] =
      Except.ok (initKuiperState 0 1)) ∧
    ((∀ q ∈ (initKuiperState (0 : ℚ) 1).tile_kuiper_p_val_trace, 0 ≤ q ∧ q ≤ 1) ∧
     (∀ q ∈ (initKuiperState (0 : ℚ) 1).tile_detection_p_val_trace, 0 ≤ q ∧ q ≤ 1) ∧
     (∀ q ∈ (initKuiperState (0 : ℚ) 1).exposure_kuiper_p_val_trace, 0 ≤ q ∧ q ≤ 1) ∧
     (∀ q ∈ (initKuiperState (0 : ℚ) 1).detection_kuiper_p_val_trace, 0 ≤ q ∧ q ≤ 1) ∧
     (0 < (initKuiperState (0 : ℚ) 1).n_exposures →
       (initKuiperState (0 : ℚ) 1).detection_p_val =
         some (1 - (1 - (initKuiperState (0 : ℚ) 1).exposure_p_val) ^
           ((initKuiperState (0 : ℚ) 1).n_exposures * 518400)) ∧
       (initKuiperState (0 : ℚ) 1).tile_detection_p_val =
         some (1 - (1 - (initKuiperState (0 : ℚ) 1).tile_p_val) ^
           ((initKuiperState (0 : ℚ) 1).n_exposures * 518400)))) :=
  ⟨fun _ => ⟨by norm_num, le_refl 1⟩, rfl,
   getKuiper_p_val_formula_and_bounds (fun _ => ((0 : ℚ), (1 : ℚ))) ⟨0, 0⟩ [] [] 1 0 []
     (initKuiperState 0 1) (fun _ => ⟨by norm_num, le_refl 1⟩) rfl⟩
